import Mathlib

/-!
Shallow embedding of the NanoPool escrow contract and of the
Create2Factory deterministic deployment factory from
src/contracts/NanoPool.sol, together with proofs of the specification
claims.

Modelling conventions: EVM addresses and 256-bit words are natural
numbers, the zero address is 0; Solidity mappings are functions with
default value 0; a require failure is an Except.error carrying the named
failure condition of the corresponding revert string; under EVM
transaction semantics a reverted call leaves the pre-call state intact,
which is the step function below.  Solidity 0.8 arithmetic is checked
(it aborts instead of wrapping), so away from the 2^256 boundary the
additions of the contract coincide with Nat addition.
-/

namespace NanoPool

/-- EVM address, modelled as a natural number; 0 is the zero address. -/
abbrev Address := Nat

/-- The Pool struct of NanoPool.sol (lines 17-28). -/
structure Pool where
  initiator : Address
  beneficiary : Address
  description : String
  goalAmount : Nat
  currentAmount : Nat
  deadlineTimestamp : Nat
  goalAchieved : Bool
  fundsDisbursed : Bool
  contributions : Address → Nat
  contributors : List Address

/-- A pool storage slot that was never written: every field is
zero-initialised, as the EVM guarantees for untouched storage. -/
def emptyPool : Pool :=
  { initiator := 0, beneficiary := 0, description := "", goalAmount := 0,
    currentAmount := 0, deadlineTimestamp := 0, goalAchieved := false,
    fundsDisbursed := false, contributions := fun _ => 0, contributors := [] }

/-- Contract storage: the Ownable owner, the private pool id counter
(line 14) and the pools mapping (line 31). -/
structure State where
  owner : Address
  poolIdCounter : Nat
  pools : Nat → Pool

/-- State right after construction by the given deployer: Ownable sets
owner to the deployer, the constructor sets the counter to 1 (line 68),
and no pool slot has ever been written. -/
def initState (deployer : Address) : State :=
  { owner := deployer, poolIdCounter := 1, pools := fun _ => emptyPool }

/-- Named failure conditions of the contract, one per require: for
example PoolNotFound is the revert string "Pool does not exist",
DeadlineNotReached is "Pool deadline not yet passed", GoalWasAchieved is
"Pool goal was achieved, no refunds available", and TransferFailed covers
the two failed-outbound-transfer requires. -/
inductive Err where
  | InvalidBeneficiary
  | InvalidGoalAmount
  | InvalidDeadline
  | PoolNotFound
  | DeadlinePassed
  | GoalAlreadyAchieved
  | ZeroContribution
  | Unauthorized
  | GoalNotAchieved
  | AlreadyDisbursed
  | DeadlineNotReached
  | GoalWasAchieved
  | NoContribution
  | TransferFailed
  deriving DecidableEq

/-- createPool (lines 79-121).  The requires run in source order; then
the id is drawn from the counter, the counter incremented, and the
listed fields of the fresh slot are assigned (the contributions mapping
is not assignable in Solidity and is left as stored). -/
def createPool (s : State) (sender : Address) (now : Nat) (bene : Address)
    (desc : String) (goal dl : Nat) : Except Err (State × Nat) :=
  if bene = 0 then .error .InvalidBeneficiary
  else if goal = 0 then .error .InvalidGoalAmount
  else if dl ≤ now then .error .InvalidDeadline
  else
    let poolId := s.poolIdCounter
    let stored := s.pools poolId
    let newPool : Pool :=
      { stored with
        initiator := sender, beneficiary := bene, description := desc,
        goalAmount := goal, currentAmount := 0, deadlineTimestamp := dl,
        goalAchieved := false, fundsDisbursed := false, contributors := [] }
    .ok ({ s with
           poolIdCounter := poolId + 1,
           pools := fun i => if i = poolId then newPool else s.pools i }, poolId)

/-- contribute (lines 127-160), called with msg.sender, msg.value and
block.timestamp.  Appends a first-time contributor, adds the value to
the ledger entry and to the aggregate, and sets the achieved flag when
the new total reaches the goal. -/
def contribute (s : State) (sender : Address) (v now pid : Nat) :
    Except Err State :=
  let pool := s.pools pid
  if pool.initiator = 0 then .error .PoolNotFound
  else if pool.deadlineTimestamp ≤ now then .error .DeadlinePassed
  else if pool.goalAchieved then .error .GoalAlreadyAchieved
  else if v = 0 then .error .ZeroContribution
  else
    let contributors' :=
      if pool.contributions sender = 0 then pool.contributors ++ [sender]
      else pool.contributors
    let contributions' :=
      fun a => if a = sender then pool.contributions a + v
               else pool.contributions a
    let currentAmount' := pool.currentAmount + v
    let goalAchieved' :=
      if pool.goalAmount ≤ currentAmount' ∧ pool.goalAchieved = false then true
      else pool.goalAchieved
    .ok { s with pools := fun i =>
            if i = pid then
              { pool with contributions := contributions',
                          contributors := contributors',
                          currentAmount := currentAmount',
                          goalAchieved := goalAchieved' }
            else s.pools i }

/-- disburseFunds (lines 166-190).  The fundsDisbursed flag is set
before the outbound transfer; tOk says whether the low-level value call
to the beneficiary succeeds, and when it fails the whole call reverts. -/
def disburseFunds (s : State) (sender : Address) (now : Nat) (tOk : Bool)
    (pid : Nat) : Except Err State :=
  let pool := s.pools pid
  if pool.initiator = 0 then .error .PoolNotFound
  else if ¬ (sender = pool.initiator ∨ sender = s.owner) then
    .error .Unauthorized
  else if pool.goalAchieved = false then .error .GoalNotAchieved
  else if pool.fundsDisbursed then .error .AlreadyDisbursed
  else if now < pool.deadlineTimestamp then .error .DeadlineNotReached
  else
    let s1 : State :=
      { s with pools := fun i =>
          if i = pid then { pool with fundsDisbursed := true }
          else s.pools i }
    if tOk then .ok s1 else .error .TransferFailed

/-- claimRefund (lines 196-221).  The caller's ledger entry is zeroed
before the outbound transfer; tOk says whether the low-level value call
back to the caller succeeds, and when it fails the whole call reverts. -/
def claimRefund (s : State) (sender : Address) (now : Nat) (tOk : Bool)
    (pid : Nat) : Except Err State :=
  let pool := s.pools pid
  if pool.initiator = 0 then .error .PoolNotFound
  else if now < pool.deadlineTimestamp then .error .DeadlineNotReached
  else if pool.goalAchieved then .error .GoalWasAchieved
  else
    let contributionAmount := pool.contributions sender
    if contributionAmount = 0 then .error .NoContribution
    else
      let s1 : State :=
        { s with pools := fun i =>
            if i = pid then
              { pool with contributions :=
                  fun a => if a = sender then 0 else pool.contributions a }
            else s.pools i }
      if tOk then .ok s1 else .error .TransferFailed

/-- getContribution (lines 272-280): view of one ledger entry. -/
def getContribution (s : State) (pid : Nat) (contributor : Address) :
    Except Err Nat :=
  let pool := s.pools pid
  if pool.initiator = 0 then .error .PoolNotFound
  else .ok (pool.contributions contributor)

/-- One external call to the contract, with its msg.sender,
block.timestamp and, where an outbound transfer happens, whether that
transfer succeeds. -/
inductive Call where
  | create (sender : Address) (now : Nat) (bene : Address) (desc : String)
      (goal dl : Nat)
  | contrib (sender : Address) (v now pid : Nat)
  | disburse (sender : Address) (now : Nat) (tOk : Bool) (pid : Nat)
  | refund (sender : Address) (now : Nat) (tOk : Bool) (pid : Nat)

/-- EVM transaction semantics of one call: a successful call commits its
new state, a reverted call leaves the state unchanged. -/
def step (s : State) : Call → State
  | .create sender now bene desc goal dl =>
      match createPool s sender now bene desc goal dl with
      | .ok (s', _) => s'
      | .error _ => s
  | .contrib sender v now pid =>
      match contribute s sender v now pid with
      | .ok s' => s'
      | .error _ => s
  | .disburse sender now tOk pid =>
      match disburseFunds s sender now tOk pid with
      | .ok s' => s'
      | .error _ => s
  | .refund sender now tOk pid =>
      match claimRefund s sender now tOk pid with
      | .ok s' => s'
      | .error _ => s

/-- Run a sequence of external calls. -/
def run (s : State) : List Call → State
  | [] => s
  | c :: cs => run (step s c) cs

/-- Whether a contribute call is accepted in the given state. -/
def contribOkB (s : State) (sender : Address) (v now pid : Nat) : Bool :=
  match contribute s sender v now pid with
  | .ok _ => true
  | .error _ => false

/-- Whether a claimRefund call is accepted in the given state. -/
def refundOkB (s : State) (sender : Address) (now : Nat) (tOk : Bool)
    (pid : Nat) : Bool :=
  match claimRefund s sender now tOk pid with
  | .ok _ => true
  | .error _ => false

/-- The pool id a createPool call returns, or none when it reverts. -/
def createRet (s : State) (sender : Address) (now : Nat) (bene : Address)
    (desc : String) (goal dl : Nat) : Option Nat :=
  match createPool s sender now bene desc goal dl with
  | .ok (_, id) => some id
  | .error _ => none

/-- Whether a createPool call is accepted.  Its requires depend only on
the arguments, never on the state. -/
def isAcceptedCreateB : Call → Bool
  | .create _ now bene _ goal dl =>
      decide (bene ≠ 0) && decide (goal ≠ 0) && decide (now < dl)
  | _ => false

/-- Number of accepted createPool calls in a trace. -/
def countAccepted : List Call → Nat
  | [] => 0
  | c :: cs => (if isAcceptedCreateB c then 1 else 0) + countAccepted cs

/-- The value a single call adds to pool p when it is an accepted
contribute call to p, and 0 otherwise. -/
def contribDelta (s : State) (p : Nat) : Call → Nat
  | .contrib sender v now pid =>
      if pid = p ∧ contribOkB s sender v now pid = true then v else 0
  | _ => 0

/-- Sum of the attached values of the accepted contribute calls to pool
p along a trace starting in state s. -/
def contribSum (s : State) (p : Nat) : List Call → Nat
  | [] => 0
  | c :: cs => contribDelta s p c + contribSum (step s c) p cs

/-- The value a single call adds to pool p on behalf of sender a when it
is an accepted contribute call by a to p, and 0 otherwise. -/
def contribDeltaBy (s : State) (p : Nat) (a : Address) : Call → Nat
  | .contrib sender v now pid =>
      if pid = p ∧ sender = a ∧ contribOkB s sender v now pid = true
      then v else 0
  | _ => 0

/-- Sum of the attached values of the accepted contribute calls made by
address a to pool p along a trace starting in state s. -/
def contribSumBy (s : State) (p : Nat) (a : Address) : List Call → Nat
  | [] => 0
  | c :: cs => contribDeltaBy s p a c + contribSumBy (step s c) p a cs

/-- Timestamp of a call. -/
def callTime : Call → Nat
  | .create _ now _ _ _ _ => now
  | .contrib _ _ now _ => now
  | .disburse _ now _ _ => now
  | .refund _ now _ _ => now

/-- Sender of a call. -/
def callSender : Call → Address
  | .create sender _ _ _ _ _ => sender
  | .contrib sender _ _ _ => sender
  | .disburse sender _ _ _ => sender
  | .refund sender _ _ _ => sender

/-- Block timestamps along the trace are at least t and non-decreasing,
as the EVM guarantees. -/
def timesMonoB : Nat → List Call → Bool
  | _, [] => true
  | t, c :: cs => decide (t ≤ callTime c) && timesMonoB (callTime c) cs

/-- Every call in the trace has a nonzero msg.sender, as the EVM
guarantees for externally originated calls. -/
def sendersNonzeroB : List Call → Bool
  | [] => true
  | c :: cs => decide (callSender c ≠ 0) && sendersNonzeroB cs

/-- Whether a disburseFunds call is accepted in the given state. -/
def disburseOkB (s : State) (sender : Address) (now : Nat) (tOk : Bool)
    (pid : Nat) : Bool :=
  match disburseFunds s sender now tOk pid with
  | .ok _ => true
  | .error _ => false

/-- Overwrite one pool slot of the storage. -/
def poolsUpdate (s : State) (pid : Nat) (p : Pool) : State :=
  { s with pools := fun i => if i = pid then p else s.pools i }

/-- The pool record a successful contribute call commits for the target
pool. -/
def contribPool (pool : Pool) (sender : Address) (v : Nat) : Pool :=
  let contributors' :=
    if pool.contributions sender = 0 then pool.contributors ++ [sender]
    else pool.contributors
  let contributions' :=
    fun a => if a = sender then pool.contributions a + v
             else pool.contributions a
  let currentAmount' := pool.currentAmount + v
  let goalAchieved' :=
    if pool.goalAmount ≤ currentAmount' ∧ pool.goalAchieved = false then true
    else pool.goalAchieved
  { pool with contributions := contributions',
              contributors := contributors',
              currentAmount := currentAmount',
              goalAchieved := goalAchieved' }

/-- The state a successful createPool call commits. -/
def createNext (s : State) (sender : Address) (bene : Address)
    (desc : String) (goal dl : Nat) : State :=
  let stored := s.pools s.poolIdCounter
  let newPool : Pool :=
    { stored with
      initiator := sender, beneficiary := bene, description := desc,
      goalAmount := goal, currentAmount := 0, deadlineTimestamp := dl,
      goalAchieved := false, fundsDisbursed := false, contributors := [] }
  let base := poolsUpdate s s.poolIdCounter newPool
  { base with poolIdCounter := s.poolIdCounter + 1 }

/-- The state a successful contribute call commits. -/
def contribNext (s : State) (sender : Address) (v pid : Nat) : State :=
  poolsUpdate s pid (contribPool (s.pools pid) sender v)

/-- The state a successful disburseFunds call commits. -/
def disburseNext (s : State) (pid : Nat) : State :=
  poolsUpdate s pid { s.pools pid with fundsDisbursed := true }

/-- The state a successful claimRefund call commits. -/
def refundNext (s : State) (sender : Address) (pid : Nat) : State :=
  poolsUpdate s pid
    { s.pools pid with contributions :=
        fun a => if a = sender then 0 else (s.pools pid).contributions a }

lemma createPool_ok_eq (s : State) (sender : Address) (now : Nat)
    (bene : Address) (desc : String) (goal dl : Nat)
    (hb : bene ≠ 0) (hg : goal ≠ 0) (hd : now < dl) :
    createPool s sender now bene desc goal dl =
      .ok (createNext s sender bene desc goal dl, s.poolIdCounter) := by
  unfold createPool createNext poolsUpdate
  rw [if_neg hb, if_neg hg, if_neg (not_le.mpr hd)]

lemma contribute_ok_eq (s : State) (sender : Address) (v now pid : Nat)
    (h1 : ¬ (s.pools pid).initiator = 0)
    (h2 : ¬ (s.pools pid).deadlineTimestamp ≤ now)
    (h3 : ¬ (s.pools pid).goalAchieved = true)
    (h4 : ¬ v = 0) :
    contribute s sender v now pid = .ok (contribNext s sender v pid) := by
  unfold contribute contribNext contribPool poolsUpdate
  rw [if_neg h1, if_neg h2, if_neg h3, if_neg h4]

lemma claimRefund_ok_eq (s : State) (sender : Address) (now : Nat)
    (tOk : Bool) (pid : Nat)
    (h1 : ¬ (s.pools pid).initiator = 0)
    (h2 : ¬ now < (s.pools pid).deadlineTimestamp)
    (h3 : ¬ (s.pools pid).goalAchieved = true)
    (h4 : ¬ (s.pools pid).contributions sender = 0)
    (h5 : tOk = true) :
    claimRefund s sender now tOk pid = .ok (refundNext s sender pid) := by
  unfold claimRefund refundNext poolsUpdate
  rw [if_neg h1, if_neg h2, if_neg h3, if_neg h4, if_pos h5]

lemma disburseFunds_ok_eq (s : State) (sender : Address) (now : Nat)
    (tOk : Bool) (pid : Nat)
    (h1 : ¬ (s.pools pid).initiator = 0)
    (h2 : sender = (s.pools pid).initiator ∨ sender = s.owner)
    (h3 : (s.pools pid).goalAchieved = true)
    (h4 : ¬ (s.pools pid).fundsDisbursed = true)
    (h5 : ¬ now < (s.pools pid).deadlineTimestamp)
    (h6 : tOk = true) :
    disburseFunds s sender now tOk pid = .ok (disburseNext s pid) := by
  unfold disburseFunds disburseNext poolsUpdate
  rw [if_neg h1, if_neg (not_not_intro h2), if_neg (by simp [h3]), if_neg h4,
    if_neg h5, if_pos h6]

lemma contribOkB_iff (s : State) (sender : Address) (v now pid : Nat) :
    contribOkB s sender v now pid = true ↔
      ((s.pools pid).initiator ≠ 0 ∧ now < (s.pools pid).deadlineTimestamp ∧
       (s.pools pid).goalAchieved = false ∧ v ≠ 0) := by
  by_cases h1 : (s.pools pid).initiator = 0
  · unfold contribOkB contribute
    simp [h1]
  · by_cases h2 : (s.pools pid).deadlineTimestamp ≤ now
    · unfold contribOkB contribute
      simp [h1, h2, not_lt.mpr h2]
    · by_cases h3 : (s.pools pid).goalAchieved = true
      · unfold contribOkB contribute
        simp [h1, h2, h3]
      · by_cases h4 : v = 0
        · unfold contribOkB contribute
          simp [h1, h2, h3, h4]
        · unfold contribOkB
          rw [contribute_ok_eq s sender v now pid h1 h2 h3 h4]
          simp [h1, h3, h4, not_le.mp h2]

lemma refundOkB_iff (s : State) (sender : Address) (now : Nat) (tOk : Bool)
    (pid : Nat) :
    refundOkB s sender now tOk pid = true ↔
      ((s.pools pid).initiator ≠ 0 ∧
       (s.pools pid).deadlineTimestamp ≤ now ∧
       (s.pools pid).goalAchieved = false ∧
       (s.pools pid).contributions sender ≠ 0 ∧ tOk = true) := by
  by_cases h1 : (s.pools pid).initiator = 0
  · unfold refundOkB claimRefund
    simp [h1]
  · by_cases h2 : now < (s.pools pid).deadlineTimestamp
    · unfold refundOkB claimRefund
      simp [h1, h2, not_le.mpr h2]
    · by_cases h3 : (s.pools pid).goalAchieved = true
      · unfold refundOkB claimRefund
        simp [h1, h2, h3]
      · by_cases h4 : (s.pools pid).contributions sender = 0
        · unfold refundOkB claimRefund
          simp [h1, h2, h3, h4]
        · by_cases h5 : tOk = true
          · unfold refundOkB
            rw [claimRefund_ok_eq s sender now tOk pid h1 h2 h3 h4 h5]
            simp [h1, h3, h4, h5, not_lt.mp h2]
          · unfold refundOkB claimRefund
            simp [h1, h2, h3, h4, h5]

lemma disburseOkB_iff (s : State) (sender : Address) (now : Nat) (tOk : Bool)
    (pid : Nat) :
    disburseOkB s sender now tOk pid = true ↔
      ((s.pools pid).initiator ≠ 0 ∧
       (sender = (s.pools pid).initiator ∨ sender = s.owner) ∧
       (s.pools pid).goalAchieved = true ∧
       (s.pools pid).fundsDisbursed = false ∧
       (s.pools pid).deadlineTimestamp ≤ now ∧ tOk = true) := by
  by_cases h1 : (s.pools pid).initiator = 0
  · unfold disburseOkB disburseFunds
    simp [h1]
  · by_cases h2 : sender = (s.pools pid).initiator ∨ sender = s.owner
    · by_cases h3 : (s.pools pid).goalAchieved = true
      · by_cases h4 : (s.pools pid).fundsDisbursed = true
        · unfold disburseOkB disburseFunds
          simp [h1, not_not_intro h2, h3, h4]
        · by_cases h5 : now < (s.pools pid).deadlineTimestamp
          · unfold disburseOkB disburseFunds
            simp [h1, not_not_intro h2, h3, h4, h5, not_le.mpr h5]
          · by_cases h6 : tOk = true
            · unfold disburseOkB
              rw [disburseFunds_ok_eq s sender now tOk pid h1 h2 h3 h4 h5 h6]
              simp [h1, h2, h3, h4, h5, h6, not_lt.mp h5]
            · unfold disburseOkB disburseFunds
              simp [h1, not_not_intro h2, h3, h4, h5, h6]
      · unfold disburseOkB disburseFunds
        simp [h1, not_not_intro h2, h3]
    · unfold disburseOkB disburseFunds
      simp [h1, h2]

lemma step_create_eq (s : State) (sender : Address) (now : Nat)
    (bene : Address) (desc : String) (goal dl : Nat) :
    step s (.create sender now bene desc goal dl) =
      if isAcceptedCreateB (.create sender now bene desc goal dl)
      then createNext s sender bene desc goal dl else s := by
  by_cases hb : bene = 0
  · subst hb
    simp [step, createPool, isAcceptedCreateB]
  · by_cases hg : goal = 0
    · subst hg
      simp [step, createPool, isAcceptedCreateB, hb]
    · by_cases hd : now < dl
      · rw [step, createPool_ok_eq s sender now bene desc goal dl hb hg hd]
        simp [isAcceptedCreateB, hb, hg, hd]
      · simp [step, createPool, isAcceptedCreateB, hb, hg, hd, not_lt.mp hd]

lemma step_contrib_eq (s : State) (sender : Address) (v now pid : Nat) :
    step s (.contrib sender v now pid) =
      if contribOkB s sender v now pid
      then contribNext s sender v pid else s := by
  cases hok : contribOkB s sender v now pid with
  | true =>
      obtain ⟨p1, p2, p3, p4⟩ := (contribOkB_iff s sender v now pid).mp hok
      rw [step, contribute_ok_eq s sender v now pid p1 (not_le.mpr p2)
        (by simp [p3]) p4]
      simp
  | false =>
      simp only [step]
      cases hc : contribute s sender v now pid with
      | ok s' =>
          exfalso
          unfold contribOkB at hok
          rw [hc] at hok
          simp at hok
      | error e => simp [hok]

lemma step_refund_eq (s : State) (sender : Address) (now : Nat)
    (tOk : Bool) (pid : Nat) :
    step s (.refund sender now tOk pid) =
      if refundOkB s sender now tOk pid
      then refundNext s sender pid else s := by
  cases hok : refundOkB s sender now tOk pid with
  | true =>
      obtain ⟨p1, p2, p3, p4, p5⟩ := (refundOkB_iff s sender now tOk pid).mp hok
      rw [step, claimRefund_ok_eq s sender now tOk pid p1 (not_lt.mpr p2)
        (by simp [p3]) p4 p5]
      simp
  | false =>
      simp only [step]
      cases hc : claimRefund s sender now tOk pid with
      | ok s' =>
          exfalso
          unfold refundOkB at hok
          rw [hc] at hok
          simp at hok
      | error e => simp [hok]

lemma step_disburse_eq (s : State) (sender : Address) (now : Nat)
    (tOk : Bool) (pid : Nat) :
    step s (.disburse sender now tOk pid) =
      if disburseOkB s sender now tOk pid
      then disburseNext s pid else s := by
  cases hok : disburseOkB s sender now tOk pid with
  | true =>
      obtain ⟨p1, p2, p3, p4, p5, p6⟩ :=
        (disburseOkB_iff s sender now tOk pid).mp hok
      rw [step, disburseFunds_ok_eq s sender now tOk pid p1 p2 p3
        (by simp [p4]) (not_lt.mpr p5) p6]
      simp
  | false =>
      simp only [step]
      cases hc : disburseFunds s sender now tOk pid with
      | ok s' =>
          exfalso
          unfold disburseOkB at hok
          rw [hc] at hok
          simp at hok
      | error e => simp [hok]

@[simp] lemma poolsUpdate_owner (s : State) (pid : Nat) (p : Pool) :
    (poolsUpdate s pid p).owner = s.owner := rfl

@[simp] lemma poolsUpdate_counter (s : State) (pid : Nat) (p : Pool) :
    (poolsUpdate s pid p).poolIdCounter = s.poolIdCounter := rfl

lemma poolsUpdate_pools (s : State) (pid : Nat) (p : Pool) (i : Nat) :
    (poolsUpdate s pid p).pools i = if i = pid then p else s.pools i := rfl

@[simp] lemma poolsUpdate_pools_self (s : State) (pid : Nat) (p : Pool) :
    (poolsUpdate s pid p).pools pid = p := by
  rw [poolsUpdate_pools, if_pos rfl]

lemma poolsUpdate_pools_ne (s : State) (pid : Nat) (p : Pool) (i : Nat)
    (h : i ≠ pid) : (poolsUpdate s pid p).pools i = s.pools i := by
  rw [poolsUpdate_pools, if_neg h]

@[simp] lemma createNext_counter (s : State) (sender bene : Address)
    (desc : String) (goal dl : Nat) :
    (createNext s sender bene desc goal dl).poolIdCounter =
      s.poolIdCounter + 1 := rfl

@[simp] lemma createNext_owner (s : State) (sender bene : Address)
    (desc : String) (goal dl : Nat) :
    (createNext s sender bene desc goal dl).owner = s.owner := rfl

lemma createNext_pools (s : State) (sender bene : Address) (desc : String)
    (goal dl : Nat) (i : Nat) :
    (createNext s sender bene desc goal dl).pools i =
      if i = s.poolIdCounter then
        { s.pools s.poolIdCounter with
          initiator := sender, beneficiary := bene, description := desc,
          goalAmount := goal, currentAmount := 0, deadlineTimestamp := dl,
          goalAchieved := false, fundsDisbursed := false, contributors := [] }
      else s.pools i := rfl

/-- Basic sanity invariant of reachable states: the counter is at least
1, and every slot at or beyond the counter (and slot 0, which is never
allocated) is still untouched storage. -/
def FreshInv (s : State) : Prop :=
  1 ≤ s.poolIdCounter ∧
  ∀ i, (i = 0 ∨ s.poolIdCounter ≤ i) → s.pools i = emptyPool

lemma freshInv_initState (d : Address) : FreshInv (initState d) :=
  ⟨le_refl 1, fun _ _ => rfl⟩

lemma freshInv_poolsUpdate (s : State) (pid : Nat) (p : Pool)
    (h : FreshInv s) (hne : (s.pools pid).initiator ≠ 0) :
    FreshInv (poolsUpdate s pid p) := by
  obtain ⟨h1, h2⟩ := h
  refine ⟨h1, fun i hi => ?_⟩
  rw [poolsUpdate_counter] at hi
  by_cases hip : i = pid
  · exfalso
    apply hne
    rw [h2 pid (hip ▸ hi)]
    rfl
  · rw [poolsUpdate_pools_ne s pid p i hip]
    exact h2 i hi

lemma freshInv_step (s : State) (c : Call) (h : FreshInv s) :
    FreshInv (step s c) := by
  cases c with
  | create sender now bene desc goal dl =>
      rw [step_create_eq]
      cases hacc : isAcceptedCreateB (.create sender now bene desc goal dl)
      · simpa using h
      · simp only [if_pos]
        obtain ⟨h1, h2⟩ := h
        refine ⟨le_trans h1 (Nat.le_succ _), fun i hi => ?_⟩
        rw [createNext_counter] at hi
        rw [createNext_pools]
        have hip : i ≠ s.poolIdCounter := by omega
        rw [if_neg hip]
        apply h2
        omega
  | contrib sender v now pid =>
      rw [step_contrib_eq]
      cases hok : contribOkB s sender v now pid
      · simpa using h
      · obtain ⟨p1, _, _, _⟩ := (contribOkB_iff s sender v now pid).mp hok
        simpa using freshInv_poolsUpdate s pid _ h p1
  | disburse sender now tOk pid =>
      rw [step_disburse_eq]
      cases hok : disburseOkB s sender now tOk pid
      · simpa using h
      · obtain ⟨p1, _, _, _, _, _⟩ :=
          (disburseOkB_iff s sender now tOk pid).mp hok
        simpa using freshInv_poolsUpdate s pid _ h p1
  | refund sender now tOk pid =>
      rw [step_refund_eq]
      cases hok : refundOkB s sender now tOk pid
      · simpa using h
      · obtain ⟨p1, _, _, _, _⟩ := (refundOkB_iff s sender now tOk pid).mp hok
        simpa using freshInv_poolsUpdate s pid _ h p1

lemma freshInv_run (tr : List Call) : ∀ s, FreshInv s → FreshInv (run s tr) := by
  induction tr with
  | nil => intro s h; exact h
  | cons c cs ih => intro s h; exact ih (step s c) (freshInv_step s c h)

lemma step_poolIdCounter (s : State) (c : Call) :
    (step s c).poolIdCounter =
      s.poolIdCounter + (if isAcceptedCreateB c then 1 else 0) := by
  cases c with
  | create sender now bene desc goal dl =>
      rw [step_create_eq]
      cases hacc : isAcceptedCreateB (.create sender now bene desc goal dl) <;>
        simp [hacc]
  | contrib sender v now pid =>
      rw [step_contrib_eq]
      cases hok : contribOkB s sender v now pid <;>
        simp [contribNext, isAcceptedCreateB]
  | disburse sender now tOk pid =>
      rw [step_disburse_eq]
      cases hok : disburseOkB s sender now tOk pid <;>
        simp [disburseNext, isAcceptedCreateB]
  | refund sender now tOk pid =>
      rw [step_refund_eq]
      cases hok : refundOkB s sender now tOk pid <;>
        simp [refundNext, isAcceptedCreateB]

lemma run_poolIdCounter (tr : List Call) :
    ∀ s, (run s tr).poolIdCounter = s.poolIdCounter + countAccepted tr := by
  induction tr with
  | nil => intro s; simp [run, countAccepted]
  | cons c cs ih =>
      intro s
      rw [run, ih (step s c), step_poolIdCounter, countAccepted,
        Nat.add_assoc]

lemma step_currentAmount (s : State) (hF : FreshInv s) (c : Call) (p : Nat) :
    ((step s c).pools p).currentAmount =
      (s.pools p).currentAmount + contribDelta s p c := by
  cases c with
  | create sender now bene desc goal dl =>
      rw [step_create_eq]
      cases hacc : isAcceptedCreateB (.create sender now bene desc goal dl)
      · simp [contribDelta]
      · simp only [if_pos]
        rw [createNext_pools]
        by_cases hp : p = s.poolIdCounter
        · have hemp : s.pools p = emptyPool := hF.2 p (Or.inr (by omega))
          rw [if_pos hp]
          simp [contribDelta, hemp, emptyPool]
        · rw [if_neg hp]
          simp [contribDelta]
  | contrib sender v now pid =>
      rw [step_contrib_eq]
      by_cases hpp : pid = p
      · subst hpp
        cases hok : contribOkB s sender v now pid
        · simp [contribDelta, hok]
        · simp [contribDelta, hok, contribNext, contribPool, poolsUpdate]
      · cases hok : contribOkB s sender v now pid
        · simp [contribDelta, hok, hpp]
        · simp [contribDelta, hok, hpp, contribNext, poolsUpdate, Ne.symm hpp]
  | disburse sender now tOk pid =>
      rw [step_disburse_eq]
      cases hok : disburseOkB s sender now tOk pid
      · simp [contribDelta]
      · by_cases hpp : p = pid <;>
          simp [contribDelta, disburseNext, poolsUpdate, hpp]
  | refund sender now tOk pid =>
      rw [step_refund_eq]
      cases hok : refundOkB s sender now tOk pid
      · simp [contribDelta]
      · by_cases hpp : p = pid <;>
          simp [contribDelta, refundNext, poolsUpdate, hpp]

lemma run_currentAmount (tr : List Call) :
    ∀ s, FreshInv s → ∀ p,
      ((run s tr).pools p).currentAmount =
        (s.pools p).currentAmount + contribSum s p tr := by
  induction tr with
  | nil => intro s _ p; simp [run, contribSum]
  | cons c cs ih =>
      intro s hF p
      rw [run, contribSum, ih (step s c) (freshInv_step s c hF) p,
        step_currentAmount s hF c p, Nat.add_assoc]

lemma step_contribution_le' (s : State) (hF : FreshInv s) (c : Call)
    (p : Nat) (a : Address) :
    ((step s c).pools p).contributions a ≤
      (s.pools p).contributions a + contribDeltaBy s p a c := by
  cases c with
  | create sender now bene desc goal dl =>
      rw [step_create_eq]
      cases hacc : isAcceptedCreateB (.create sender now bene desc goal dl)
      · simp [contribDeltaBy]
      · simp only [if_pos]
        rw [createNext_pools]
        by_cases hp : p = s.poolIdCounter
        · have hemp : s.pools p = emptyPool := hF.2 p (Or.inr (by omega))
          rw [if_pos hp, ← hp]
          simp [contribDeltaBy, hemp, emptyPool]
        · rw [if_neg hp]
          simp [contribDeltaBy]
  | contrib sender v now pid =>
      rw [step_contrib_eq]
      by_cases hpp : pid = p
      · subst hpp
        by_cases hsa : sender = a
        · subst hsa
          cases hok : contribOkB s sender v now pid
          · simp [contribDeltaBy, hok]
          · simp [contribDeltaBy, hok, contribNext, contribPool, poolsUpdate]
        · cases hok : contribOkB s sender v now pid
          · simp [contribDeltaBy, hok, hsa]
          · simp [contribDeltaBy, hok, hsa, contribNext, contribPool,
              poolsUpdate, Ne.symm hsa]
      · cases hok : contribOkB s sender v now pid
        · simp [contribDeltaBy, hok, hpp]
        · simp [contribDeltaBy, hok, hpp, contribNext, poolsUpdate,
            Ne.symm hpp]
  | disburse sender now tOk pid =>
      rw [step_disburse_eq]
      cases hok : disburseOkB s sender now tOk pid
      · simp [contribDeltaBy]
      · by_cases hpp : p = pid <;>
          simp [contribDeltaBy, disburseNext, poolsUpdate, hpp]
  | refund sender now tOk pid =>
      rw [step_refund_eq]
      cases hok : refundOkB s sender now tOk pid
      · simp [contribDeltaBy]
      · by_cases hpp : p = pid
        · subst hpp
          by_cases hsa : a = sender <;>
            simp [contribDeltaBy, refundNext, poolsUpdate, hsa]
        · simp [contribDeltaBy, refundNext, poolsUpdate, hpp]

lemma run_contribution_le (tr : List Call) :
    ∀ s, FreshInv s → ∀ p a,
      ((run s tr).pools p).contributions a ≤
        (s.pools p).contributions a + contribSumBy s p a tr := by
  induction tr with
  | nil => intro s _ p a; simp [run, contribSumBy]
  | cons c cs ih =>
      intro s hF p a
      rw [run, contribSumBy]
      calc ((run (step s c) cs).pools p).contributions a
          ≤ ((step s c).pools p).contributions a
              + contribSumBy (step s c) p a cs :=
            ih (step s c) (freshInv_step s c hF) p a
        _ ≤ ((s.pools p).contributions a + contribDeltaBy s p a c)
              + contribSumBy (step s c) p a cs :=
            Nat.add_le_add_right (step_contribution_le' s hF c p a) _
        _ = (s.pools p).contributions a +
              (contribDeltaBy s p a c + contribSumBy (step s c) p a cs) :=
            Nat.add_assoc _ _ _

/-- Invariant behind the at-most-once contributors property, relative to
a lower bound t on the timestamps of all future calls: every
contributors list is duplicate-free, every address with a nonzero ledger
entry is listed, and a listed address with a zero entry can only come
from a refund, which forces the pool's deadline to lie at or before t. -/
def C4Inv (s : State) (t : Nat) : Prop := ∀ p,
  ((s.pools p).contributors.Nodup) ∧
  (∀ a, (s.pools p).contributions a ≠ 0 → a ∈ (s.pools p).contributors) ∧
  (∀ a, a ∈ (s.pools p).contributors → (s.pools p).contributions a = 0 →
    (s.pools p).deadlineTimestamp ≤ t)

lemma c4Inv_mono (s : State) (t t' : Nat) (h : C4Inv s t) (htt : t ≤ t') :
    C4Inv s t' := fun p =>
  ⟨(h p).1, (h p).2.1,
   fun a ha hz => le_trans ((h p).2.2 a ha hz) htt⟩

lemma c4Inv_initState (d t : Nat) : C4Inv (initState d) t := by
  intro p
  refine ⟨?_, ?_, ?_⟩ <;> simp [initState, emptyPool]

lemma c4Inv_step (s : State) (t : Nat) (c : Call) (hF : FreshInv s)
    (h : C4Inv s t) (ht : t ≤ callTime c) : C4Inv (step s c) (callTime c) := by
  cases c with
  | create sender now bene desc goal dl =>
      rw [step_create_eq]
      cases hacc : isAcceptedCreateB (.create sender now bene desc goal dl)
      · simpa using c4Inv_mono s t _ h ht
      · simp only [if_pos]
        intro p
        rw [createNext_pools]
        by_cases hp : p = s.poolIdCounter
        · have hemp : s.pools s.poolIdCounter = emptyPool :=
            hF.2 s.poolIdCounter (Or.inr (le_refl _))
          rw [if_pos hp, hemp]
          refine ⟨?_, ?_, ?_⟩ <;> simp [emptyPool]
        · rw [if_neg hp]
          exact c4Inv_mono s t _ h ht p
  | contrib sender v now pid =>
      rw [step_contrib_eq]
      cases hok : contribOkB s sender v now pid
      · simpa using c4Inv_mono s t _ h ht
      · obtain ⟨p1, p2, p3, p4⟩ := (contribOkB_iff s sender v now pid).mp hok
        simp only [if_pos]
        intro p
        by_cases hpp : p = pid
        · subst hpp
          rw [contribNext, poolsUpdate_pools_self]
          have ht' : t ≤ now := ht
          constructor
          · -- the contributors list stays duplicate-free
            rw [contribPool]
            by_cases hz : (s.pools p).contributions sender = 0
            · have hnm : sender ∉ (s.pools p).contributors := by
                intro hmem
                have := (h p).2.2 sender hmem hz
                omega
              simp only [if_pos hz]
              exact ((h p).1).append (List.nodup_singleton sender)
                (List.disjoint_singleton.2 hnm)
            · simp only [if_neg hz]
              exact (h p).1
          constructor
          · -- nonzero entries are listed
            intro a ha
            rw [contribPool] at ha ⊢
            simp only at ha ⊢
            by_cases hz : (s.pools p).contributions sender = 0
            · simp only [if_pos hz]
              by_cases hsa : a = sender
              · subst hsa
                simp
              · rw [if_neg hsa] at ha
                exact List.mem_append_left _ ((h p).2.1 a ha)
            · simp only [if_neg hz]
              by_cases hsa : a = sender
              · subst hsa
                exact (h p).2.1 a hz
              · rw [if_neg hsa] at ha
                exact (h p).2.1 a ha
          · -- listed addresses with a zero entry imply an expired deadline
            intro a ha hz0
            rw [contribPool] at ha hz0 ⊢
            simp only at ha hz0 ⊢
            by_cases hsa : a = sender
            · subst hsa
              rw [if_pos rfl] at hz0
              omega
            · rw [if_neg hsa] at hz0
              by_cases hz : (s.pools p).contributions sender = 0
              · rw [if_pos hz] at ha
                rcases List.mem_append.mp ha with hmem | hmem
                · exact le_trans ((h p).2.2 a hmem hz0) ht'
                · exact absurd (List.mem_singleton.mp hmem) hsa
              · rw [if_neg hz] at ha
                exact le_trans ((h p).2.2 a ha hz0) ht'
        · rw [contribNext, poolsUpdate_pools_ne s pid _ p hpp]
          exact c4Inv_mono s t _ h ht p
  | disburse sender now tOk pid =>
      rw [step_disburse_eq]
      cases hok : disburseOkB s sender now tOk pid
      · simpa using c4Inv_mono s t _ h ht
      · simp only [if_pos]
        intro p
        by_cases hpp : p = pid
        · subst hpp
          rw [disburseNext, poolsUpdate_pools_self]
          exact c4Inv_mono s t _ h ht p
        · rw [disburseNext, poolsUpdate_pools_ne s pid _ p hpp]
          exact c4Inv_mono s t _ h ht p
  | refund sender now tOk pid =>
      rw [step_refund_eq]
      cases hok : refundOkB s sender now tOk pid
      · simpa using c4Inv_mono s t _ h ht
      · obtain ⟨q1, q2, q3, q4, q5⟩ := (refundOkB_iff s sender now tOk pid).mp hok
        simp only [if_pos]
        intro p
        by_cases hpp : p = pid
        · subst hpp
          rw [refundNext, poolsUpdate_pools_self]
          refine ⟨(h p).1, ?_, ?_⟩
          · intro a ha
            simp only at ha
            by_cases hsa : a = sender
            · rw [if_pos hsa] at ha
              exact absurd rfl ha
            · rw [if_neg hsa] at ha
              exact (h p).2.1 a ha
          · intro a ha hz0
            simp only at ha hz0 ⊢
            by_cases hsa : a = sender
            · exact q2
            · rw [if_neg hsa] at hz0
              exact le_trans ((h p).2.2 a ha hz0) ht
        · rw [refundNext, poolsUpdate_pools_ne s pid _ p hpp]
          exact c4Inv_mono s t _ h ht p

lemma c4Inv_run (tr : List Call) :
    ∀ s t, FreshInv s → C4Inv s t → timesMonoB t tr = true →
      ∀ p, ((run s tr).pools p).contributors.Nodup := by
  induction tr with
  | nil => intro s t _ h _ p; exact (h p).1
  | cons c cs ih =>
      intro s t hF h hm p
      rw [timesMonoB, Bool.and_eq_true, decide_eq_true_eq] at hm
      rw [run]
      exact ih (step s c) (callTime c) (freshInv_step s c hF)
        (c4Inv_step s t c hF h hm.1) hm.2 p

/-- For traces whose calls all come from nonzero senders, a pool slot
has a nonzero initiator exactly when its id was handed out by some
successful createPool call, that is, when it lies in the interval from 1
up to but excluding the counter. -/
def RangeInv (s : State) : Prop :=
  1 ≤ s.poolIdCounter ∧
  ∀ p, ((s.pools p).initiator ≠ 0 ↔ (1 ≤ p ∧ p < s.poolIdCounter))

lemma rangeInv_initState (d : Address) : RangeInv (initState d) := by
  refine ⟨le_refl 1, fun p => ?_⟩
  simp only [initState]
  constructor
  · intro hne
    exact absurd rfl hne
  · intro hlt
    omega

lemma rangeInv_step (s : State) (c : Call) (h : RangeInv s)
    (hs : callSender c ≠ 0) : RangeInv (step s c) := by
  obtain ⟨h1, h2⟩ := h
  cases c with
  | create sender now bene desc goal dl =>
      rw [step_create_eq]
      cases hacc : isAcceptedCreateB (.create sender now bene desc goal dl)
      · simpa using ⟨h1, h2⟩
      · simp only [if_pos]
        refine ⟨by simp, fun p => ?_⟩
        rw [createNext_pools, createNext_counter]
        by_cases hp : p = s.poolIdCounter
        · rw [if_pos hp]
          simp only [callSender] at hs
          simp only
          constructor
          · intro _
            omega
          · intro _
            exact hs
        · rw [if_neg hp, h2 p]
          omega
  | contrib sender v now pid =>
      rw [step_contrib_eq]
      cases hok : contribOkB s sender v now pid
      · simpa using ⟨h1, h2⟩
      · simp only [if_pos]
        refine ⟨h1, fun p => ?_⟩
        rw [contribNext, poolsUpdate_counter]
        by_cases hpp : p = pid
        · subst hpp
          rw [poolsUpdate_pools_self, contribPool]
          exact h2 p
        · rw [poolsUpdate_pools_ne s pid _ p hpp]
          exact h2 p
  | disburse sender now tOk pid =>
      rw [step_disburse_eq]
      cases hok : disburseOkB s sender now tOk pid
      · simpa using ⟨h1, h2⟩
      · simp only [if_pos]
        refine ⟨h1, fun p => ?_⟩
        rw [disburseNext, poolsUpdate_counter]
        by_cases hpp : p = pid
        · subst hpp
          rw [poolsUpdate_pools_self]
          exact h2 p
        · rw [poolsUpdate_pools_ne s pid _ p hpp]
          exact h2 p
  | refund sender now tOk pid =>
      rw [step_refund_eq]
      cases hok : refundOkB s sender now tOk pid
      · simpa using ⟨h1, h2⟩
      · simp only [if_pos]
        refine ⟨h1, fun p => ?_⟩
        rw [refundNext, poolsUpdate_counter]
        by_cases hpp : p = pid
        · subst hpp
          rw [poolsUpdate_pools_self]
          exact h2 p
        · rw [poolsUpdate_pools_ne s pid _ p hpp]
          exact h2 p

lemma rangeInv_run (tr : List Call) :
    ∀ s, RangeInv s → sendersNonzeroB tr = true → RangeInv (run s tr) := by
  induction tr with
  | nil => intro s h _; exact h
  | cons c cs ih =>
      intro s h hm
      rw [sendersNonzeroB, Bool.and_eq_true, decide_eq_true_eq] at hm
      rw [run]
      exact ih (step s c) (rangeInv_step s c h hm.1) hm.2

/-- A concrete createPool call: initiator 1, beneficiary 2, goal 5,
deadline 100, made at time 0. -/
def demoCreate : Call := .create 1 0 2 "Test Pool" 5 100

/-- Trace with one pool and one contribution of 2 (goal not reached). -/
def demoTraceOpen : List Call := [demoCreate, .contrib 3 2 10 1]

/-- Trace with one pool and one contribution of 5 (goal reached). -/
def demoTraceAchieved : List Call := [demoCreate, .contrib 3 5 10 1]

/-- State with a single freshly created pool. -/
def sAfterCreate : State := run (initState 9) [demoCreate]

/-- State whose pool 1 holds a contribution of 2 and an unmet goal. -/
def poolOpenState : State := run (initState 9) demoTraceOpen

/-- State whose pool 1 has goalAchieved true and deadline 100. -/
def poolAchievedState : State := run (initState 9) demoTraceAchieved

/-- C1 counterexample: pool 1 of this reachable state has goalAchieved
true and deadline 100, yet claimRefund at time 50 — before the deadline —
rejects with DeadlineNotReached, not with GoalWasAchieved, because the
deadline require runs before the goalAchieved require. -/
theorem claim_C1_counterexample :
    (poolAchievedState.pools 1).goalAchieved = true ∧
    50 < (poolAchievedState.pools 1).deadlineTimestamp ∧
    claimRefund poolAchievedState 3 50 true 1 = .error .DeadlineNotReached ∧
    claimRefund poolAchievedState 3 50 true 1 ≠ .error .GoalWasAchieved := by
  have h3 : claimRefund poolAchievedState 3 50 true 1 =
      .error .DeadlineNotReached := rfl
  refine ⟨by decide, by decide, h3, fun hc => ?_⟩
  rw [h3] at hc
  exact Err.noConfusion (Except.error.inj hc)

/-- C1 (amended): claimRefund on an existing pool whose goalAchieved flag
is true always rejects; it rejects with GoalWasAchieved when the current
time is at or past the deadline, and with DeadlineNotReached when it is
strictly before the deadline. -/
theorem claim_C1_refund_on_achieved_rejects (s : State) (sender : Address)
    (now : Nat) (tOk : Bool) (pid : Nat)
    (hex : (s.pools pid).initiator ≠ 0)
    (hach : (s.pools pid).goalAchieved = true) :
    ((s.pools pid).deadlineTimestamp ≤ now →
      claimRefund s sender now tOk pid = .error .GoalWasAchieved) ∧
    (now < (s.pools pid).deadlineTimestamp →
      claimRefund s sender now tOk pid = .error .DeadlineNotReached) := by
  constructor
  · intro hd
    unfold claimRefund
    rw [if_neg hex, if_neg (not_lt.mpr hd), if_pos hach]
  · intro hd
    unfold claimRefund
    rw [if_neg hex, if_pos hd]

/-- C1 witness: the amended statement evaluated on the demo pool. -/
theorem claim_C1_witness :
    claimRefund poolAchievedState 3 200 true 1 = .error .GoalWasAchieved :=
  (claim_C1_refund_on_achieved_rejects poolAchievedState 3 200 true 1
    (by decide) (by decide)).1 (by decide)

/-- C2: along any trace from the freshly deployed contract, each pool's
currentAmount equals the sum of the attached values of the accepted
contribute calls to it; and a successful claimRefund zeroes the caller's
ledger entry while leaving currentAmount unchanged. -/
theorem claim_C2_currentAmount_sum (d : Address) (tr : List Call) (p : Nat)
    (s : State) (sender : Address) (now : Nat) (tOk : Bool) (pid : Nat) :
    ((run (initState d) tr).pools p).currentAmount =
      contribSum (initState d) p tr ∧
    (refundOkB s sender now tOk pid = true →
      ((step s (.refund sender now tOk pid)).pools pid).currentAmount =
        (s.pools pid).currentAmount ∧
      ((step s (.refund sender now tOk pid)).pools pid).contributions
        sender = 0) := by
  constructor
  · have h := run_currentAmount tr (initState d) (freshInv_initState d) p
    simpa [initState, emptyPool] using h
  · intro hok
    rw [step_refund_eq, if_pos hok]
    constructor
    · rw [refundNext, poolsUpdate_pools_self]
    · rw [refundNext, poolsUpdate_pools_self]
      simp

/-- C2 witness: the sum law and the refund effect on the demo pool. -/
theorem claim_C2_witness :
    ((run (initState 9) demoTraceOpen).pools 1).currentAmount =
      contribSum (initState 9) 1 demoTraceOpen ∧
    ((step poolOpenState (.refund 3 200 true 1)).pools 1).currentAmount =
      (poolOpenState.pools 1).currentAmount ∧
    ((step poolOpenState (.refund 3 200 true 1)).pools 1).contributions 3
      = 0 := by
  obtain ⟨h1, h2⟩ :=
    claim_C2_currentAmount_sum 9 demoTraceOpen 1 poolOpenState 3 200 true 1
  exact ⟨h1, (h2 (by decide)).1, (h2 (by decide)).2⟩

/-- C3: a contribute call of positive value on an existing pool with
goalAchieved false, strictly before the deadline, is accepted; it adds
the value to the caller's ledger entry and to currentAmount, and the
committed goalAchieved flag is true exactly when the new currentAmount
reaches goalAmount — in particular one unit below the goal leaves it
false. -/
theorem claim_C3_contribute_spec (s : State) (sender : Address)
    (v now pid : Nat)
    (hex : (s.pools pid).initiator ≠ 0)
    (hdl : now < (s.pools pid).deadlineTimestamp)
    (hna : (s.pools pid).goalAchieved = false)
    (hv : 0 < v) :
    contribOkB s sender v now pid = true ∧
    ((step s (.contrib sender v now pid)).pools pid).contributions sender
      = (s.pools pid).contributions sender + v ∧
    ((step s (.contrib sender v now pid)).pools pid).currentAmount
      = (s.pools pid).currentAmount + v ∧
    (((step s (.contrib sender v now pid)).pools pid).goalAchieved = true ↔
      (s.pools pid).goalAmount ≤ (s.pools pid).currentAmount + v) ∧
    ((s.pools pid).currentAmount + v + 1 = (s.pools pid).goalAmount →
      ((step s (.contrib sender v now pid)).pools pid).goalAchieved
        = false) := by
  have hok : contribOkB s sender v now pid = true :=
    (contribOkB_iff s sender v now pid).mpr
      ⟨hex, hdl, hna, Nat.pos_iff_ne_zero.mp hv⟩
  refine ⟨hok, ?_, ?_, ?_, ?_⟩ <;>
    simp only [step_contrib_eq, hok, if_true, contribNext,
      poolsUpdate_pools_self, contribPool]
  · simp [hna]
  · intro h1
    simp [hna]
    omega

/-- C3 witness: contributing 4 toward a goal of 5 is accepted, books 4,
and leaves goalAchieved false, one unit below the goal. -/
theorem claim_C3_witness :
    contribOkB sAfterCreate 3 4 10 1 = true ∧
    ((step sAfterCreate (.contrib 3 4 10 1)).pools 1).contributions 3 = 4 ∧
    ((step sAfterCreate (.contrib 3 4 10 1)).pools 1).currentAmount = 4 ∧
    ((step sAfterCreate (.contrib 3 4 10 1)).pools 1).goalAchieved
      = false := by
  obtain ⟨h1, h2, h3, h4, h5⟩ :=
    claim_C3_contribute_spec sAfterCreate 3 4 10 1 (by decide) (by decide)
      (by decide) (by decide)
  refine ⟨h1, ?_, ?_, h5 (by decide)⟩
  · rw [h2]
    decide
  · rw [h3]
    decide

/-- C4: along any trace with non-decreasing block timestamps from the
freshly deployed contract, every pool's contributors list is
duplicate-free. -/
theorem claim_C4_contributors_nodup (d : Address) (tr : List Call)
    (hm : timesMonoB 0 tr = true) (p : Nat) :
    ((run (initState d) tr).pools p).contributors.Nodup :=
  c4Inv_run tr (initState d) 0 (freshInv_initState d) (c4Inv_initState d 0)
    hm p

/-- C4 witness: a trace where address 3 contributes twice still lists it
once. -/
theorem claim_C4_witness :
    timesMonoB 0 [demoCreate, .contrib 3 2 10 1, .contrib 3 1 20 1,
        .contrib 4 1 30 1] = true ∧
    ((run (initState 9) [demoCreate, .contrib 3 2 10 1, .contrib 3 1 20 1,
        .contrib 4 1 30 1]).pools 1).contributors.Nodup :=
  ⟨by decide,
   claim_C4_contributors_nodup 9
     [demoCreate, .contrib 3 2 10 1, .contrib 3 1 20 1, .contrib 4 1 30 1]
     (by decide) 1⟩

/-- C5: when the outbound transfer fails, disburseFunds and claimRefund
revert as a whole — the post-call state equals the pre-call state, so
the fundsDisbursed flag set before the transfer and the zeroed ledger
entry are rolled back; under the remaining preconditions the reported
condition is TransferFailed. -/
theorem claim_C5_transfer_failure_atomic (s : State) (sender : Address)
    (now pid : Nat) :
    step s (.disburse sender now false pid) = s ∧
    step s (.refund sender now false pid) = s ∧
    ((s.pools pid).initiator ≠ 0 →
     (sender = (s.pools pid).initiator ∨ sender = s.owner) →
     (s.pools pid).goalAchieved = true →
     (s.pools pid).fundsDisbursed = false →
     (s.pools pid).deadlineTimestamp ≤ now →
      disburseFunds s sender now false pid = .error .TransferFailed) ∧
    ((s.pools pid).initiator ≠ 0 →
     (s.pools pid).deadlineTimestamp ≤ now →
     (s.pools pid).goalAchieved = false →
     (s.pools pid).contributions sender ≠ 0 →
      claimRefund s sender now false pid = .error .TransferFailed) := by
  have hd : disburseOkB s sender now false pid = false := by
    cases hok : disburseOkB s sender now false pid
    · rfl
    · obtain ⟨_, _, _, _, _, h6⟩ :=
        (disburseOkB_iff s sender now false pid).mp hok
      simp at h6
  have hr : refundOkB s sender now false pid = false := by
    cases hok : refundOkB s sender now false pid
    · rfl
    · obtain ⟨_, _, _, _, h5⟩ := (refundOkB_iff s sender now false pid).mp hok
      simp at h5
  refine ⟨?_, ?_, ?_, ?_⟩
  · rw [step_disburse_eq, hd]
    simp
  · rw [step_refund_eq, hr]
    simp
  · intro h1 h2 h3 h4 h5
    unfold disburseFunds
    rw [if_neg h1, if_neg (not_not_intro h2), if_neg (by simp [h3]),
      if_neg (by simp [h4]), if_neg (not_lt.mpr h5)]
    rfl
  · intro h1 h2 h3 h4
    unfold claimRefund
    rw [if_neg h1, if_neg (not_lt.mpr h2), if_neg (by simp [h3]), if_neg h4]
    rfl

/-- C5 witness: failed transfers on the demo pools change nothing and
report TransferFailed. -/
theorem claim_C5_witness :
    step poolAchievedState (.disburse 1 200 false 1) = poolAchievedState ∧
    disburseFunds poolAchievedState 1 200 false 1
      = .error .TransferFailed ∧
    step poolOpenState (.refund 3 200 false 1) = poolOpenState ∧
    claimRefund poolOpenState 3 200 false 1 = .error .TransferFailed := by
  obtain ⟨a1, _, a3, _⟩ :=
    claim_C5_transfer_failure_atomic poolAchievedState 1 200 1
  obtain ⟨_, b2, _, b4⟩ :=
    claim_C5_transfer_failure_atomic poolOpenState 3 200 1
  exact ⟨a1,
    a3 (by decide) (Or.inl (by decide)) (by decide) (by decide) (by decide),
    b2, b4 (by decide) (by decide) (by decide) (by decide)⟩

/-- C6: the counter of the deployed contract equals 1 plus the number of
accepted createPool calls so far, a further valid createPool call
returns exactly that value and bumps the counter by one, and a call with
a zero beneficiary rejects with InvalidBeneficiary leaving the state —
counter included — unchanged. -/
theorem claim_C6_create_ids (d : Address) (tr : List Call)
    (sender : Address) (now : Nat) (bene : Address) (desc : String)
    (goal dl : Nat) :
    (run (initState d) tr).poolIdCounter = 1 + countAccepted tr ∧
    (bene ≠ 0 → goal ≠ 0 → now < dl →
      createRet (run (initState d) tr) sender now bene desc goal dl =
        some (1 + countAccepted tr) ∧
      (step (run (initState d) tr)
          (.create sender now bene desc goal dl)).poolIdCounter =
        (1 + countAccepted tr) + 1) ∧
    createPool (run (initState d) tr) sender now 0 desc goal dl =
      .error .InvalidBeneficiary ∧
    step (run (initState d) tr) (.create sender now 0 desc goal dl) =
      run (initState d) tr := by
  have hc : (run (initState d) tr).poolIdCounter = 1 + countAccepted tr := by
    rw [run_poolIdCounter tr (initState d)]
    simp [initState]
  have herr : createPool (run (initState d) tr) sender now 0 desc goal dl =
      .error .InvalidBeneficiary := by
    unfold createPool
    rw [if_pos rfl]
  refine ⟨hc, ?_, herr, ?_⟩
  · intro hb hg hd
    have hacc : isAcceptedCreateB (.create sender now bene desc goal dl)
        = true := by
      simp [isAcceptedCreateB, hb, hg, hd]
    constructor
    · rw [createRet,
        createPool_ok_eq (run (initState d) tr) sender now bene desc goal dl
          hb hg hd]
      simp [hc]
    · rw [step_create_eq, if_pos hacc, createNext_counter, hc]
  · simp only [step, herr]

/-- C6 witness: after one successful create, the next valid create
returns id 2, and a zero-beneficiary create is rejected without moving
the counter. -/
theorem claim_C6_witness :
    (run (initState 9) [demoCreate]).poolIdCounter =
      1 + countAccepted [demoCreate] ∧
    createRet (run (initState 9) [demoCreate]) 4 0 7 "second" 5 100 =
      some (1 + countAccepted [demoCreate]) ∧
    createPool (run (initState 9) [demoCreate]) 4 0 0 "second" 5 100 =
      .error .InvalidBeneficiary ∧
    step (run (initState 9) [demoCreate]) (.create 4 0 0 "second" 5 100) =
      run (initState 9) [demoCreate] := by
  obtain ⟨h1, h2, h3, h4⟩ :=
    claim_C6_create_ids 9 [demoCreate] 4 0 7 "second" 5 100
  exact ⟨h1, (h2 (by decide) (by decide) (by decide)).1, h3, h4⟩

/-- C7: on an existing pool with goalAchieved true and fundsDisbursed
false, a disburseFunds call by the initiator or the owner strictly
before the deadline rejects with DeadlineNotReached. -/
theorem claim_C7_disburse_before_deadline (s : State) (sender : Address)
    (now : Nat) (tOk : Bool) (pid : Nat)
    (hex : (s.pools pid).initiator ≠ 0)
    (hauth : sender = (s.pools pid).initiator ∨ sender = s.owner)
    (hach : (s.pools pid).goalAchieved = true)
    (hnd : (s.pools pid).fundsDisbursed = false)
    (hlt : now < (s.pools pid).deadlineTimestamp) :
    disburseFunds s sender now tOk pid = .error .DeadlineNotReached := by
  unfold disburseFunds
  rw [if_neg hex, if_neg (not_not_intro hauth), if_neg (by simp [hach]),
    if_neg (by simp [hnd]), if_pos hlt]

/-- C7 witness: the demo achieved pool at time 50, before its deadline
100. -/
theorem claim_C7_witness :
    disburseFunds poolAchievedState 1 50 true 1
      = .error .DeadlineNotReached :=
  claim_C7_disburse_before_deadline poolAchievedState 1 50 true 1
    (by decide) (Or.inl (by decide)) (by decide) (by decide) (by decide)

/-- C9: a successful claimRefund only zeroes the caller's own ledger
entry; the owner, the counter, every other pool, every other field of
the target pool — its contributors list included, so the refunded
address stays listed — and every other address's entry are unchanged. -/
theorem claim_C9_refund_frame (s : State) (sender : Address) (now : Nat)
    (tOk : Bool) (pid : Nat)
    (hok : refundOkB s sender now tOk pid = true) :
    (step s (.refund sender now tOk pid)).owner = s.owner ∧
    (step s (.refund sender now tOk pid)).poolIdCounter =
      s.poolIdCounter ∧
    (∀ q, q ≠ pid →
      (step s (.refund sender now tOk pid)).pools q = s.pools q) ∧
    ((step s (.refund sender now tOk pid)).pools pid).initiator =
      (s.pools pid).initiator ∧
    ((step s (.refund sender now tOk pid)).pools pid).beneficiary =
      (s.pools pid).beneficiary ∧
    ((step s (.refund sender now tOk pid)).pools pid).description =
      (s.pools pid).description ∧
    ((step s (.refund sender now tOk pid)).pools pid).goalAmount =
      (s.pools pid).goalAmount ∧
    ((step s (.refund sender now tOk pid)).pools pid).currentAmount =
      (s.pools pid).currentAmount ∧
    ((step s (.refund sender now tOk pid)).pools pid).deadlineTimestamp =
      (s.pools pid).deadlineTimestamp ∧
    ((step s (.refund sender now tOk pid)).pools pid).goalAchieved =
      (s.pools pid).goalAchieved ∧
    ((step s (.refund sender now tOk pid)).pools pid).fundsDisbursed =
      (s.pools pid).fundsDisbursed ∧
    ((step s (.refund sender now tOk pid)).pools pid).contributors =
      (s.pools pid).contributors ∧
    (∀ a, a ≠ sender →
      ((step s (.refund sender now tOk pid)).pools pid).contributions a =
        (s.pools pid).contributions a) ∧
    ((step s (.refund sender now tOk pid)).pools pid).contributions sender
      = 0 := by
  rw [step_refund_eq, if_pos hok]
  refine ⟨rfl, rfl, fun q hq => ?_, ?_, ?_, ?_, ?_, ?_, ?_, ?_, ?_, ?_,
    fun a ha => ?_, ?_⟩
  · rw [refundNext, poolsUpdate_pools_ne s pid _ q hq]
  all_goals rw [refundNext, poolsUpdate_pools_self]
  · simp [ha]
  · simp

/-- C9 witness: the demo refund leaves the owner, pool 2, the
contributors list and address 4's entry alone while zeroing address 3's
entry. -/
theorem claim_C9_witness :
    (step poolOpenState (.refund 3 200 true 1)).owner =
      poolOpenState.owner ∧
    (step poolOpenState (.refund 3 200 true 1)).pools 2 =
      poolOpenState.pools 2 ∧
    ((step poolOpenState (.refund 3 200 true 1)).pools 1).contributors =
      (poolOpenState.pools 1).contributors ∧
    ((step poolOpenState (.refund 3 200 true 1)).pools 1).contributions 4 =
      (poolOpenState.pools 1).contributions 4 ∧
    ((step poolOpenState (.refund 3 200 true 1)).pools 1).contributions 3
      = 0 := by
  obtain ⟨w1, w2, w3, w4, w5, w6, w7, w8, w9, w10, w11, w12, w13, w14⟩ :=
    claim_C9_refund_frame poolOpenState 3 200 true 1 (by decide)
  exact ⟨w1, w3 2 (by decide), w12, w13 4 (by decide), w14⟩

/-- C10: on a trace from the deployed contract, getContribution rejects
with PoolNotFound exactly when — for traces of nonzero senders — the
queried id was never handed out; on an existing pool it returns the
stored entry, which is 0 for an address that never contributed
successfully; and right after a successful refund it returns 0 for the
refunded caller. -/
theorem claim_C10_getContribution (d : Address) (tr : List Call)
    (p : Nat) (a : Address) (s : State) (sender : Address) (now : Nat)
    (tOk : Bool) :
    (sendersNonzeroB tr = true →
      (getContribution (run (initState d) tr) p a = .error .PoolNotFound ↔
        ¬(1 ≤ p ∧ p < (run (initState d) tr).poolIdCounter))) ∧
    (((run (initState d) tr).pools p).initiator ≠ 0 →
      getContribution (run (initState d) tr) p a =
        .ok (((run (initState d) tr).pools p).contributions a)) ∧
    (contribSumBy (initState d) p a tr = 0 →
      ((run (initState d) tr).pools p).contributions a = 0) ∧
    (refundOkB s sender now tOk p = true →
      getContribution (step s (.refund sender now tOk p)) p sender
        = .ok 0) := by
  refine ⟨?_, ?_, ?_, ?_⟩
  · intro hnz
    have hR := rangeInv_run tr (initState d) (rangeInv_initState d) hnz
    constructor
    · intro herr hrange
      by_cases hi : ((run (initState d) tr).pools p).initiator = 0
      · exact ((hR.2 p).mpr hrange) hi
      · unfold getContribution at herr
        rw [if_neg hi] at herr
        exact Except.noConfusion herr
    · intro hnr
      have hi : ((run (initState d) tr).pools p).initiator = 0 := by
        by_contra hne
        exact hnr ((hR.2 p).mp hne)
      unfold getContribution
      rw [if_pos hi]
  · intro hi
    unfold getContribution
    rw [if_neg hi]
  · intro hz
    have h := run_contribution_le tr (initState d) (freshInv_initState d) p a
    rw [hz] at h
    simpa [initState, emptyPool] using h
  · intro hok
    obtain ⟨q1, _, _, _, _⟩ := (refundOkB_iff s sender now tOk p).mp hok
    rw [step_refund_eq, if_pos hok]
    have hini : ((refundNext s sender p).pools p).initiator ≠ 0 := by
      rw [refundNext, poolsUpdate_pools_self]
      exact q1
    unfold getContribution
    rw [if_neg hini, refundNext, poolsUpdate_pools_self]
    simp

/-- C10 witness: address 5 never contributed to pool 1 and reads 0, id 7
was never handed out and reads PoolNotFound, and after the demo refund
address 3 reads 0. -/
theorem claim_C10_witness :
    getContribution (run (initState 9) demoTraceOpen) 1 5 = .ok 0 ∧
    getContribution (run (initState 9) demoTraceOpen) 7 5 =
      .error .PoolNotFound ∧
    getContribution (step poolOpenState (.refund 3 200 true 1)) 1 3
      = .ok 0 := by
  obtain ⟨w1, w2, w3, w4⟩ :=
    claim_C10_getContribution 9 demoTraceOpen 1 5 poolOpenState 3 200 true
  obtain ⟨x1, _, _, _⟩ :=
    claim_C10_getContribution 9 demoTraceOpen 7 5 poolOpenState 3 200 true
  refine ⟨?_, (x1 (by decide)).mpr (by decide), w4 (by decide)⟩
  have h1 := w2 (by decide)
  rw [w3 (by decide)] at h1
  exact h1

end NanoPool

namespace Create2Factory

/-- Big-endian byte encoding of a natural number on w bytes, the shape
abi.encodePacked gives to the address, salt and hash words. -/
def bytesOfNat (w n : Nat) : List Nat :=
  (List.range w).map (fun i => n / 256 ^ (w - 1 - i) % 256)

/-- computeAddress (NanoPool.sol lines 616-627): keccak over the packed
0xff byte, the factory's own 20-byte address, the 32-byte salt and the
32-byte keccak hash of the bytecode, truncated to 160 bits.  The keccak
function itself is an EVM builtin and is abstracted as a parameter. -/
def computeAddress (keccak : List Nat → Nat) (self : Nat)
    (bytecode : List Nat) (salt : Nat) : Nat :=
  keccak ([0xff] ++ bytesOfNat 20 self ++ bytesOfNat 32 salt
          ++ bytesOfNat 32 (keccak bytecode)) % 2 ^ 160

/-- computeAddressFromHash (lines 635-646): the same computation from a
precomputed bytecode hash. -/
def computeAddressFromHash (keccak : List Nat → Nat) (self : Nat)
    (bytecodeHash salt : Nat) : Nat :=
  keccak ([0xff] ++ bytesOfNat 20 self ++ bytesOfNat 32 salt
          ++ bytesOfNat 32 bytecodeHash) % 2 ^ 160

/-- Modelled from the spec: the EVM create2 instruction used inside
deploy (line 602) is not part of this repository; per the spec the
address it deploys at is the deterministic-address formula, a
keccak-style hash over a fixed lead byte, the deployer's own address,
the salt and the hash of the bytecode, truncated to an address-sized
value. -/
def create2Address (keccak : List Nat → Nat) (self : Nat)
    (bytecode : List Nat) (salt : Nat) : Nat :=
  keccak ([0xff] ++ bytesOfNat 20 self ++ bytesOfNat 32 salt
          ++ bytesOfNat 32 (keccak bytecode)) % 2 ^ 160

/-- deploy (lines 600-608): the environment either performs the create2
deployment at the deterministic address (envOk true) or fails it, in
which case the instruction yields the zero address and the require
reverts with the deployment-failed condition. -/
def deploy (keccak : List Nat → Nat) (self : Nat) (envOk : Bool)
    (bytecode : List Nat) (salt : Nat) : Except String Nat :=
  let deployedAddress :=
    if envOk then create2Address keccak self bytecode salt else 0
  if deployedAddress = 0 then .error "Create2Factory: deployment failed"
  else .ok deployedAddress

/-- A stand-in hash function used only to evaluate the parametric
theorems on concrete inputs. -/
def hashLen : List Nat → Nat := fun l => l.length

/-- C8: for every bytecode and salt, computeAddress agrees with
computeAddressFromHash applied to the keccak hash of the bytecode, both
equal the deterministic create2 address formula, and a successful deploy
returns exactly that address. -/
theorem claim_C8_deterministic_address (keccak : List Nat → Nat)
    (self : Nat) (bytecode : List Nat) (salt : Nat) (envOk : Bool)
    (a : Nat) :
    computeAddress keccak self bytecode salt =
      computeAddressFromHash keccak self (keccak bytecode) salt ∧
    computeAddress keccak self bytecode salt =
      create2Address keccak self bytecode salt ∧
    (deploy keccak self envOk bytecode salt = .ok a →
      a = computeAddress keccak self bytecode salt) := by
  refine ⟨rfl, rfl, ?_⟩
  intro h
  simp only [deploy] at h
  by_cases hz :
      (if envOk then create2Address keccak self bytecode salt else 0) = 0
  · rw [if_pos hz] at h
    exact Except.noConfusion h
  · rw [if_neg hz] at h
    have hval := Except.ok.inj h
    cases envOk with
    | true =>
        rw [if_pos rfl] at hval
        exact hval.symm
    | false =>
        rw [if_neg (by simp)] at hval
        exact absurd rfl (hval ▸ hz)

/-- C8 witness: the address agreement and the deploy result evaluated
with the stand-in hash, factory address 3, bytecode [1, 2] and salt 5. -/
theorem claim_C8_witness :
    computeAddress hashLen 3 [1, 2] 5 =
      computeAddressFromHash hashLen 3 (hashLen [1, 2]) 5 ∧
    deploy hashLen 3 true [1, 2] 5 =
      .ok (computeAddress hashLen 3 [1, 2] 5) := by
  obtain ⟨h1, h2, h3⟩ := claim_C8_deterministic_address hashLen 3 [1, 2] 5
    true (computeAddress hashLen 3 [1, 2] 5)
  refine ⟨h1, ?_⟩
  rfl

end Create2Factory
